import Mathlib

/-!
Verification development for the NerdWallet credit-card scraper
(`src/app/scrapers/nerdwallet/index.ts`).

The TypeScript module is shallowly embedded here.  JavaScript strings are
modelled as `List Char`; JavaScript regular-expression matching (the only
regex features the module uses: case-insensitive literals, `\d`, `\s`,
greedy `+`/`*`/`?`, lazy `+?`, non-capturing alternation, capture groups,
`$`) is modelled by a small backtracking engine whose candidate order
mirrors ECMAScript backtracking priority (leftmost start position first,
left alternative first, greedy = longest first, lazy = shortest first).
JavaScript exceptions are modelled with `Except String`.
-/

namespace NW

abbrev Str := List Char

/-- JavaScript `\s` restricted to the ASCII whitespace the scraped text can
contain: space, tab, LF, CR, VT, FF. -/
def isWs (c : Char) : Bool :=
  c = ' ' || c = '\t' || c = '\n' || c = '\r' || c = '\x0b' || c = '\x0c'

/-- JavaScript `\d`, the ASCII digits. -/
def isDigit (c : Char) : Bool :=
  '0' ≤ c && c ≤ '9'

/-- JavaScript `String.prototype.trim` (ASCII whitespace). -/
def jsTrim (s : Str) : Str :=
  ((s.dropWhile isWs).reverse.dropWhile isWs).reverse

/-- JavaScript `String.prototype.toLowerCase` on ASCII text. -/
def jsLower (s : Str) : Str :=
  s.map Char.toLower

/-- JavaScript `String.prototype.includes`: substring containment. -/
def jsIncludes (s sub : Str) : Bool :=
  decide (sub <:+: s)

/-- Abstract syntax of the regular-expression fragment used by the module. -/
inductive RE where
  | eps : RE
  | cls (p : Char → Bool) : RE
  | seq (a b : RE) : RE
  | alt (a b : RE) : RE
  | opt (a : RE) : RE
  | starG (a : RE) : RE
  | plusL (p : Char → Bool) : RE
  | eos : RE
  | grp (a : RE) : RE

/-- Structural size of a regex, used to budget the matcher's fuel. -/
def RE.size : RE → Nat
  | .eps => 1
  | .cls _ => 1
  | .seq a b => 1 + a.size + b.size
  | .alt a b => 1 + a.size + b.size
  | .opt a => 1 + a.size
  | .starG a => 1 + a.size
  | .plusL _ => 1
  | .eos => 1
  | .grp a => 1 + a.size

/-- Lengths `1, 2, …` of the non-empty prefixes all of whose characters
satisfy `p` — the candidate consumption lengths of a lazy `[p]+?`,
shortest first. -/
def lazyLens (p : Char → Bool) : Str → List Nat
  | [] => []
  | c :: rest =>
    if p c then 1 :: (lazyLens p rest).map (· + 1) else []

/-- All ways a regex can match a prefix of `s`, as
(consumed length, captured substrings) pairs, listed in ECMAScript
backtracking priority order (the head is the match JavaScript commits to).
A `starG` iteration that consumes nothing is discarded, exactly as the
ECMAScript `RepeatMatcher` does.  Structural recursion on a fuel
parameter keeps the definition kernel-reducible; every recursive call
strictly decreases `s.length + re.size`, so `reMatches` below always
supplies enough fuel for the cutoff branch to be unreachable. -/
def reMatchesF : Nat → RE → Str → List (Nat × List Str)
  | 0, _, _ => []
  | fuel + 1, re, s =>
    match re with
    | .eps => [(0, [])]
    | .cls p =>
      match s with
      | [] => []
      | c :: _ => if p c then [(1, [])] else []
    | .seq a b =>
      (reMatchesF fuel a s).flatMap fun r =>
        (reMatchesF fuel b (s.drop r.1)).map fun q => (r.1 + q.1, r.2 ++ q.2)
    | .alt a b => reMatchesF fuel a s ++ reMatchesF fuel b s
    | .opt a => reMatchesF fuel a s ++ [(0, [])]
    | .starG a =>
      ((reMatchesF fuel a s).flatMap fun r =>
        if 0 < r.1 then
          (reMatchesF fuel (.starG a) (s.drop r.1)).map fun q =>
            (r.1 + q.1, r.2 ++ q.2)
        else []) ++ [(0, [])]
    | .plusL p => (lazyLens p s).map fun n => (n, [])
    | .eos => if s.isEmpty then [(0, [])] else []
    | .grp a => (reMatchesF fuel a s).map fun r => (r.1, r.2 ++ [s.take r.1])

/-- Runs `reMatchesF` with adequate fuel. -/
def reMatches (re : RE) (s : Str) : List (Nat × List Str) :=
  reMatchesF (s.length + re.size + 1) re s

/-- The match JavaScript commits to when the regex is tried at the start of
`s`: the highest-priority element of `reMatches`. -/
def matchAt (re : RE) (s : Str) (i : Nat) : Option (Nat × List Str) :=
  (reMatches re (s.drop i)).head?

/-- A whole-string match record: start position, end position, captured
substrings. -/
structure MatchRes where
  mstart : Nat
  mend : Nat
  caps : List Str
deriving DecidableEq, Repr

/-- ECMAScript matching from position `i`: the match at the least start
position `≥ i` admitting one (tries `i, i+1, …, s.length`). -/
def firstMatchFrom (re : RE) (s : Str) (i : Nat) : Option MatchRes :=
  (List.range' i (s.length + 1 - i)).findSome? fun j =>
    (matchAt re s j).map fun r => ⟨j, j + r.1, r.2⟩

/-- One `pattern.exec(text)` call on a regex whose `lastIndex` is 0. -/
def execFirst (re : RE) (s : Str) : Option MatchRes :=
  firstMatchFrom re s 0

/-- The `while ((match = pattern.exec(text)) !== null)` idiom on a `/g`
regex: each found match advances `lastIndex` to its end.  The loop body is
re-entered only while the index strictly advances (a stalled empty match
would make the JavaScript loop diverge; no pattern in the module can match
the empty string). -/
def execLoopFrom (re : RE) (s : Str) : Nat → Nat → List MatchRes
  | 0, _ => []
  | fuel + 1, i =>
    match firstMatchFrom re s i with
    | none => []
    | some m =>
      m :: (if i < m.mend then execLoopFrom re s fuel m.mend else [])

/-- All matches of a `/g` regex over `s`, in scan order. -/
def execAll (re : RE) (s : Str) : List MatchRes :=
  execLoopFrom re s (s.length + 1) 0

/-- Case-insensitive single character (the module's regexes all carry the
`i` flag). -/
def chi (c : Char) : RE :=
  .cls fun x => x.toLower = c.toLower

/-- Case-insensitive literal string. -/
def lit (w : String) : RE :=
  w.data.foldr (fun c acc => .seq (chi c) acc) .eps

/-- Sequencing of a list of regexes. -/
def seqs (l : List RE) : RE :=
  l.foldr .seq .eps

/-- Greedy `p+` as `p · p*`. -/
def plusG (p : Char → Bool) : RE :=
  .seq (.cls p) (.starG (.cls p))

/-- Pattern `\s+`. -/
def wsP : RE := plusG isWs

/-- Pattern `\d+`. -/
def digitsP : RE := plusG isDigit

/-- Pattern `(\d+(?:,\d+)*)` — a captured digit group with optional comma groups. -/
def numComma : RE := .grp (.seq digitsP (.starG (.seq (chi ',') digitsP)))

/-- Pattern `(\d+)`. -/
def digitsG : RE := .grp digitsP

/-- Pattern `(?:points?|miles?)`. -/
def pointsOrMiles : RE :=
  .alt (.seq (lit "point") (.opt (chi 's'))) (.seq (lit "mile") (.opt (chi 's')))

/-- The four `bonusPatterns` of `parseIntroOffer`, in source order:
`/\$(\d+(?:,\d+)*)\s+(?:cash\s+back|bonus)/gi`,
`/(\d+(?:,\d+)*)\s+(?:points?|miles?)\s+bonus/gi`,
`/earn\s+(?:up\s+to\s+)?(\d+(?:,\d+)*)\s+(?:points?|miles?)/gi`,
`/(\d+(?:,\d+)*)\s+(?:points?|miles?)/gi`. -/
def bonusPatterns : List RE :=
  [ seqs [chi '$', numComma, wsP,
      .alt (seqs [lit "cash", wsP, lit "back"]) (lit "bonus")],
    seqs [numComma, wsP, pointsOrMiles, wsP, lit "bonus"],
    seqs [lit "earn", wsP, .opt (seqs [lit "up", wsP, lit "to", wsP]),
      numComma, wsP, pointsOrMiles],
    seqs [numComma, wsP, pointsOrMiles] ]

/-- The three `spendPatterns` of `parseIntroOffer`, in source order:
`/spend\s+\$(\d+(?:,\d+)*)/gi`, `/after\s+you\s+spend\s+\$(\d+(?:,\d+)*)/gi`,
`/\$(\d+(?:,\d+)*)\s+in\s+purchases/gi`. -/
def spendPatterns : List RE :=
  [ seqs [lit "spend", wsP, chi '$', numComma],
    seqs [lit "after", wsP, lit "you", wsP, lit "spend", wsP, chi '$', numComma],
    seqs [chi '$', numComma, wsP, lit "in", wsP, lit "purchases"] ]

/-- The three `timePatterns` of `parseIntroOffer`, in source order:
`/within\s+(\d+)\s+months?/gi`, `/in\s+the\s+first\s+(\d+)\s+months?/gi`,
`/(\d+)\s+months?\s+from\s+account\s+opening/gi`. -/
def timePatterns : List RE :=
  [ seqs [lit "within", wsP, digitsG, wsP, lit "month", .opt (chi 's')],
    seqs [lit "in", wsP, lit "the", wsP, lit "first", wsP, digitsG, wsP,
      lit "month", .opt (chi 's')],
    seqs [digitsG, wsP, lit "month", .opt (chi 's'), wsP, lit "from", wsP,
      lit "account", wsP, lit "opening"] ]

/-- The three `aprPatterns` of `parseIntroOffer`, in source order:
`/(\d+(?:\.\d+)?%)\s+(?:intro\s+)?apr/gi`, `/0%\s+(?:intro\s+)?apr/gi`,
`/(\d+)\s+months?\s+(?:of\s+)?0%\s+apr/gi`. -/
def aprPatterns : List RE :=
  [ seqs [.grp (seqs [digitsP, .opt (.seq (chi '.') digitsP), chi '%']), wsP,
      .opt (.seq (lit "intro") wsP), lit "apr"],
    seqs [lit "0%", wsP, .opt (.seq (lit "intro") wsP), lit "apr"],
    seqs [digitsG, wsP, lit "month", .opt (chi 's'), wsP,
      .opt (.seq (lit "of") wsP), lit "0%", wsP, lit "apr"] ]

/-- Pattern `(\d+(?:\.\d+)?%)` — a captured percentage rate. -/
def ratePct : RE := .grp (seqs [digitsP, .opt (.seq (chi '.') digitsP), chi '%'])

/-- Pattern `(\d+(?:\.\d+)?x)` — a captured multiplier rate. -/
def rateX : RE := .grp (seqs [digitsP, .opt (.seq (chi '.') digitsP), chi 'x'])

/-- Pattern `(\d+(?:\.\d+)?)` — a captured bare numeric rate. -/
def rateNum : RE := .grp (seqs [digitsP, .opt (.seq (chi '.') digitsP)])

/-- Class `[^,\n.]` — the category-phrase character class. -/
def catChar (c : Char) : Bool :=
  ¬(c = ',' || c = '\n' || c = '.')

/-- Pattern `([^,\n.]+?)` — the captured lazy category phrase. -/
def catGrp : RE := .grp (.plusL catChar)

/-- The clause-boundary tail
`(?:\s+(?:on\s+up\s+to|up\s+to|\(then|\sand)|\.|,|$)`. -/
def ender : RE :=
  .alt
    (.seq wsP
      (.alt (seqs [lit "on", wsP, lit "up", wsP, lit "to"])
        (.alt (seqs [lit "up", wsP, lit "to"])
          (.alt (lit "(then") (.seq (.cls isWs) (lit "and"))))))
    (.alt (chi '.') (.alt (chi ',') .eos))

/-- Pattern `cash\s+back`. -/
def cashBack : RE := seqs [lit "cash", wsP, lit "back"]

/-- Pattern `(?:at|on)`. -/
def atOrOn : RE := .alt (lit "at") (lit "on")

/-- Pattern `(?:points?\s+)?`. -/
def optPoints : RE := .opt (seqs [lit "point", .opt (chi 's'), wsP])

/-- Pattern `(?:miles?\s+)?`. -/
def optMiles : RE := .opt (seqs [lit "mile", .opt (chi 's'), wsP])

/-- The eight `patterns` of `parseRewardsTooltip`, in source order. -/
def rewardPatterns : List RE :=
  [ seqs [ratePct, wsP, cashBack, wsP, atOrOn, wsP, catGrp, ender],
    seqs [rateX, wsP, optPoints, lit "on", wsP, catGrp, ender],
    seqs [rateNum, wsP, optMiles, .opt (seqs [lit "per", wsP, chi '$', chi '1', wsP]),
      lit "on", wsP, catGrp, ender],
    seqs [lit "earn", wsP, lit "unlimited", wsP, ratePct, wsP, cashBack, wsP,
      atOrOn, wsP, catGrp, ender],
    seqs [lit "earn", wsP, lit "unlimited", wsP, rateX, wsP, optPoints,
      lit "on", wsP, catGrp, ender],
    seqs [lit "earn", wsP, lit "unlimited", wsP, rateNum, wsP, optMiles,
      lit "on", wsP, catGrp, ender],
    seqs [ratePct, wsP, cashBack, wsP, lit "at", wsP, catGrp, wsP,
      lit "on", wsP, lit "up", wsP, lit "to"],
    seqs [rateX, wsP, optMiles, lit "on", wsP, catGrp, wsP,
      lit "booked", wsP, lit "through"] ]

/-- Result of `normalizeCategory`: a taxonomy tag plus an optional travel
platform brand (the JavaScript object's missing `platform` property is
`none`). -/
structure NormCat where
  category : String
  platform : Option String
deriving DecidableEq, Repr

/-- The `travelKeywords` list of `isTravelCategory`. -/
def travelKeywords : List String :=
  ["travel", "flight", "hotel", "rental car", "vacation rental"]

/-- Function `isTravelCategory`: does the (already lower-cased) phrase contain a
travel keyword? -/
def isTravelCategory (category : Str) : Bool :=
  travelKeywords.any fun k => jsIncludes category k.data

/-- Function `extractTravelPlatform`: the if-chain of platform and travel
subcategory checks, in source order. -/
def extractTravelPlatform (category : Str) : NormCat :=
  if jsIncludes category "chase travel".data then
    ⟨"travel", some "Chase Travel"⟩
  else if jsIncludes category "capital one travel".data then
    ⟨"travel", some "Capital One Travel"⟩
  else if jsIncludes category "american express travel".data then
    ⟨"travel", some "American Express Travel"⟩
  else if jsIncludes category "citi travel".data then
    ⟨"travel", some "Citi Travel"⟩
  else if jsIncludes category "hotel".data then ⟨"hotels", none⟩
  else if jsIncludes category "flight".data then ⟨"flights", none⟩
  else if jsIncludes category "rental car".data then ⟨"rental-cars", none⟩
  else if jsIncludes category "vacation rental".data then
    ⟨"vacation-rentals", none⟩
  else ⟨"travel", none⟩

/-- The `categoryMappings` table, in JavaScript object insertion order
(`Object.entries` preserves it). -/
def categoryMappings : List (String × String) :=
  [ ("dining", "restaurants"), ("restaurants", "restaurants"),
    ("dining at restaurants", "restaurants"), ("restaurant", "restaurants"),
    ("grocery stores", "groceries"), ("groceries", "groceries"),
    ("supermarkets", "groceries"), ("u.s. supermarkets", "groceries"),
    ("gas stations", "gas"), ("gas", "gas"), ("u.s. gas stations", "gas"),
    ("drugstore purchases", "drugstore"), ("drugstore", "drugstore"),
    ("pharmacy", "drugstore"),
    ("streaming services", "streaming"), ("streaming", "streaming"),
    ("select streaming services", "streaming"),
    ("u.s. streaming subscriptions", "streaming"),
    ("transit", "transit"), ("transportation", "transit"),
    ("taxis/rideshare", "transit"), ("parking", "transit"),
    ("tolls", "transit"),
    ("all other purchases", "general"), ("other purchases", "general"),
    ("everything else", "general"), ("all purchases", "general") ]

/-- Step `.replace(/purchases?/g, "")` on an (already lower-cased) phrase; the
fuel equals the string length, which bounds the recursion depth. -/
def stripPurchasesF : Nat → Str → Str
  | 0, s => s
  | _ + 1, [] => []
  | fuel + 1, c :: rest =>
    if (c :: rest).take 9 = "purchases".data then
      stripPurchasesF fuel ((c :: rest).drop 9)
    else if (c :: rest).take 8 = "purchase".data then
      stripPurchasesF fuel ((c :: rest).drop 8)
    else c :: stripPurchasesF fuel rest

/-- Step `.replace(/purchases?/g, "")`. -/
def stripPurchases (s : Str) : Str :=
  stripPurchasesF s.length s

/-- Step `.replace(/\s+/g, " ")`: collapse whitespace runs to single spaces.
`prevWs` records whether the previous character belonged to a run already
replaced. -/
def collapseWsAux (prevWs : Bool) : Str → Str
  | [] => []
  | c :: rest =>
    if isWs c then
      if prevWs then collapseWsAux true rest
      else ' ' :: collapseWsAux true rest
    else c :: collapseWsAux false rest

/-- Step `.replace(/\s+/g, " ")`. -/
def collapseWs (s : Str) : Str :=
  collapseWsAux false s

/-- Function `normalizeCategory`: lower-case, branch to travel handling on a travel
keyword, otherwise first containment hit in the mapping table, otherwise
the cleaned residue of the input. -/
def normalizeCategory (rawCategory : Str) : NormCat :=
  let category := jsLower rawCategory
  if isTravelCategory category then extractTravelPlatform category
  else
    match categoryMappings.find? (fun kv => jsIncludes category kv.1.data) with
    | some kv => ⟨kv.2, none⟩
    | none => ⟨(jsTrim (collapseWs (stripPurchases category))).asString, none⟩

/-- One entry of `rewards.categories` as pushed by `parseRewardsTooltip`:
`{rate: match[1], category, platform, rawCategory: match[2].trim()}`. -/
structure RewardCategory where
  rate : String
  category : String
  platform : Option String
  rawCategory : String
deriving DecidableEq, Repr

/-- The `rewards` object built by `parseRewardsTooltip`. -/
structure Rewards where
  categories : List RewardCategory
deriving DecidableEq, Repr

/-- Group 1 of a match (`match[1]`). -/
def cap1 (m : MatchRes) : Str := m.caps.headD []

/-- Group 2 of a match (`match[2]`). -/
def cap2 (m : MatchRes) : Str := m.caps.getD 1 []

/-- The full matched substring (`match[0]`). -/
def matchedText (t : Str) (m : MatchRes) : Str :=
  (t.drop m.mstart).take (m.mend - m.mstart)

/-- The loop body of `parseRewardsTooltip`: one match becomes one pushed
category entry. -/
def matchToEntry (m : MatchRes) : RewardCategory :=
  let rawCategory := jsTrim (cap2 m)
  let norm := normalizeCategory rawCategory
  ⟨(cap1 m).asString, norm.category, norm.platform, rawCategory.asString⟩

/-- All matches of the eight reward templates: for each template in source
order, every `exec` hit over the text in scan order. -/
def rewardMatchesAll (t : Str) : List MatchRes :=
  rewardPatterns.flatMap fun p => execAll p t

/-- Function `parseRewardsTooltip`. -/
def parseRewardsTooltip (t : Str) : Rewards :=
  ⟨(rewardMatchesAll t).map matchToEntry⟩

/-- Function `parseRewardsTooltip` as called on a possibly-`null` argument: `exec`
coerces `null` to the string `"null"`, and the function touches its
argument in no other way, so it cannot throw. -/
def parseRewardsTooltipJS : Option Str → Rewards
  | some t => parseRewardsTooltip t
  | none => parseRewardsTooltip "null".data

/-- A JavaScript value stored in a dynamically-typed field: the module's
`IntroOffer` fields hold either regex capture strings or (per the spec's
data model) numbers. -/
inductive JsVal where
  | str (s : String)
  | num (n : Nat)
deriving DecidableEq, Repr

/-- The `introOffer` object built by `parseIntroOffer`. -/
structure IntroOffer where
  bonusAmount : Option JsVal
  spendRequirement : Option JsVal
  timeLimit : Option String
  aprInfo : Option String
  additionalBenefits : List String
deriving DecidableEq, Repr

/-- The `benefitKeywords` list of `parseIntroOffer`, in source order. -/
def benefitKeywords : List String :=
  ["no annual fee", "no foreign transaction fees", "free", "credit",
   "statement credit"]

/-- One `for (const pattern of pats) { exec; if (match) break }` round:
the first pattern with a match, and that match. -/
def firstExec (pats : List RE) (t : Str) : Option MatchRes :=
  pats.findSome? fun p => execFirst p t

/-- Function `parseIntroOffer` on a (non-null) string. -/
def parseIntroOffer (t : Str) : IntroOffer :=
  { bonusAmount := (firstExec bonusPatterns t).map fun m => .str (cap1 m).asString
    spendRequirement :=
      (firstExec spendPatterns t).map fun m => .str (cap1 m).asString
    timeLimit :=
      (firstExec timePatterns t).map fun m => ((cap1 m) ++ " months".data).asString
    aprInfo := (firstExec aprPatterns t).map fun m => (matchedText t m).asString
    additionalBenefits :=
      benefitKeywords.filter fun k => jsIncludes (jsLower t) k.data }

/-- Function `parseIntroOffer` as called on a possibly-`null` argument.  The `exec`
calls coerce `null` to `"null"` (which no pattern matches), but the
benefit-keyword loop evaluates `tooltipText.toLowerCase()`, which throws a
`TypeError` on `null` — so the `null` case is an exception, not a result. -/
def parseIntroOfferJS : Option Str → Except String IntroOffer
  | some t => .ok (parseIntroOffer t)
  | none => .error "TypeError: Cannot read properties of null (reading 'toLowerCase')"

/-- Function `trim` lifted to Lean `String`s. -/
def jsTrimS (s : String) : String := (jsTrim s.data).asString

/-- Truthiness of a JavaScript string-or-undefined: `undefined` and `""`
are falsy. -/
def truthyO : Option String → Bool
  | some s => s ≠ ""
  | none => false

/-- An `img` element inside a row: its `src`, `data-src` and `alt`
attributes (`none` = attribute absent, `getAttribute` returns `null`). -/
structure ImgEl where
  srcAttr : Option String
  dataSrcAttr : Option String
  altAttr : Option String
deriving DecidableEq, Repr

/-- The DOM facts about one `<tr>` that the extraction script reads:
`numCols` is `row.querySelectorAll("td").length`; `testidEl` is the text
of the `[data-testid*="summary-table-card-name"]` element in column 0 when
one exists; `fallbackEl` is the text of the first `a, span, div, h3…h6`
element in column 0 when one exists; `colText`/`ratingText`/… are the raw
`textContent` strings of columns 0–4; `rewardsBtn`/`introBtn` record
whether columns 3/4 contain a `<button>`; `img` is the row's first `<img>`
if any. -/
structure Row where
  numCols : Nat
  testidEl : Option String
  fallbackEl : Option String
  colText : String
  ratingText : String
  feeText : String
  rewardsText : String
  introText : String
  rewardsBtn : Bool
  introBtn : Bool
  img : Option ImgEl
deriving DecidableEq, Repr

/-- Value `card.image` as assembled by the script. -/
structure ImageData where
  src : String
  alt : String
  filename : String
deriving DecidableEq, Repr

/-- The `cardData` object (plus the tooltip enrichment fields attached
later by the pipeline).  An absent JavaScript property is `none`/`false`. -/
structure CardData where
  name : Option String := none
  rating : Option String := none
  annualFee : Option String := none
  rewards : Option String := none
  hasRewardsTooltip : Bool := false
  introOffer : Option String := none
  hasIntroTooltip : Bool := false
  image : Option ImageData := none
  detailedRewards : Option (String × Rewards) := none
  detailedIntroOffer : Option (String × IntroOffer) := none
deriving DecidableEq, Repr

/-- The early-validation name probe `hasCardName`: the `||`-chain yields
the testid ELEMENT itself (an object, not a string) when that selector
hits, else the first non-empty trimmed text among the fallback element and
the raw cell text. -/
inductive NameProbe where
  | element
  | str (s : String)
deriving DecidableEq, Repr

/-- Evaluates the `hasCardName` expression for a row. -/
def earlyProbe (row : Row) : NameProbe :=
  match row.testidEl with
  | some _ => .element
  | none =>
    match row.fallbackEl with
    | some f => if jsTrimS f ≠ "" then .str (jsTrimS f) else .str (jsTrimS row.colText)
    | none => .str (jsTrimS row.colText)

/-- The row-skip test
`!hasCardName || hasCardName === "ref: <Node>" || hasCardName.length < 3`:
when the probe is a DOM element every disjunct is false (`element.length`
is `undefined` and `undefined < 3` is `false`), so the row passes. -/
def earlySkip : NameProbe → Bool
  | .element => false
  | .str s => s = "" || s = "ref: <Node>" || s.length < 3

/-- The final name guard
`if (cardName && cardName !== "ref: <Node>") cardData.name = cardName`. -/
def nameGuard : Option String → Option String
  | some n => if n ≠ "" && n ≠ "ref: <Node>" then some n else none
  | none => none

/-- Column 0 extraction: the testid element's trimmed text, else the
fallback element's, else the raw cell text; stored only if truthy and not
the rendering placeholder. -/
def extractedName (row : Row) : Option String :=
  nameGuard
    (if truthyO (if truthyO (row.testidEl.map jsTrimS) then row.testidEl.map jsTrimS
                 else row.fallbackEl.map jsTrimS) then
      (if truthyO (row.testidEl.map jsTrimS) then row.testidEl.map jsTrimS
       else row.fallbackEl.map jsTrimS)
     else some (jsTrimS row.colText))

/-- ASCII letters and digits — `[^a-zA-Z0-9]` is their complement. -/
def isAlnumAscii (c : Char) : Bool :=
  ('a' ≤ c && c ≤ 'z') || ('A' ≤ c && c ≤ 'Z') || ('0' ≤ c && c ≤ '9')

/-- Step `name.replace(/[^a-zA-Z0-9]/g, "_").toLowerCase()`. -/
def slugify (name : String) : String :=
  (jsLower (name.data.map fun c => if isAlnumAscii c then c else '_')).asString

/-- The per-row `cardData` builder: the `tableData.forEach` column
dispatch plus the image block. -/
def buildCard (rowIndex : Nat) (row : Row) : CardData :=
  let name := extractedName row
  let rating := let r := row.ratingText.take 3; if r ≠ "" then some r else none
  let annualFee := let f := row.feeText.drop 1; if f ≠ "" then some f else none
  let rewards :=
    let w := jsTrimS row.rewardsText; if w ≠ "" then some w else none
  let introOffer :=
    let io := jsTrimS row.introText; if io ≠ "" then some io else none
  let image :=
    match row.img with
    | none => none
    | some ie =>
      let src0 := if truthyO ie.srcAttr then ie.srcAttr else ie.dataSrcAttr
      match src0 with
      | some src =>
        if src ≠ "" then
          let filename :=
            match name with
            | some n => slugify n ++ ".jpg"
            | none => "card_" ++ toString (rowIndex + 1) ++ ".jpg"
          some (⟨src, ie.altAttr.getD "", filename⟩ : ImageData)
        else none
      | none => none
  { name := name, rating := rating, annualFee := annualFee,
    rewards := rewards, hasRewardsTooltip := row.rewardsBtn,
    introOffer := introOffer, hasIntroTooltip := row.introBtn,
    image := image }

/-- The push condition
`if (cardData.name && (cardData.annualFee !== undefined || cardData.rewards))`. -/
def pushGuard (cd : CardData) : Option CardData :=
  if cd.name.isSome && (cd.annualFee.isSome || cd.rewards.isSome) then some cd
  else none

/-- The full `rows.forEach` body for one row: skip on fewer than 5 cells,
skip on a failed name probe, and push only a card with a name and a fee or
rewards text. -/
def extractRow (rowIndex : Nat) (row : Row) : Option CardData :=
  if row.numCols < 5 then none
  else if earlySkip (earlyProbe row) then none
  else pushGuard (buildCard rowIndex row)

/-- The in-page extraction: every table row in order through
`extractRow`. -/
def extractCards (rows : List Row) : List CardData :=
  rows.enum.filterMap fun p => extractRow p.1 p.2

/-- The duplicate test of the dedup filter:
`c.name === card.name && c.annualFee === card.annualFee &&
c.rewards === card.rewards`. -/
def keyEq (a b : CardData) : Bool :=
  a.name == b.name && a.annualFee == b.annualFee && a.rewards == b.rewards

/-- The JavaScript
`filter((card, index, self) => index === self.findIndex(c => …))` idiom:
walk the list with its running index, keeping an element iff the first
index in the full list with its key is its own index. -/
def uniqueCardsAux (full : List CardData) : Nat → List CardData → List CardData
  | _, [] => []
  | i, c :: rest =>
    if full.findIdx (fun x => keyEq x c) = i then
      c :: uniqueCardsAux full (i + 1) rest
    else uniqueCardsAux full (i + 1) rest

/-- The `uniqueCards` dedup of `scrapeCreditCardSection`. -/
def uniqueCards (l : List CardData) : List CardData :=
  uniqueCardsAux l 0 l

/-- Modelled from the spec's words (§4.5), for comparison with
`uniqueCards`: keep a card iff no already-kept card shares its
`(name, annualFee, rewardsText)` key, preserving input order. -/
def dedupeSpecAux (seen : List CardData) : List CardData → List CardData
  | [] => []
  | c :: rest =>
    if seen.any (fun s => keyEq s c) then dedupeSpecAux seen rest
    else c :: dedupeSpecAux (seen ++ [c]) rest

/-- Modelled from the spec's words (§4.5): first occurrence of each key is
kept, stably. -/
def dedupeSpec (l : List CardData) : List CardData :=
  dedupeSpecAux [] l

/-- One scraping session, with the outcomes of each awaited browser
operation: `pageInit` is whether `initialize()` ran (`this.page !== null`);
`gotoResult` is the navigation outcome (`.error` = a thrown navigation
failure such as a timeout); `evalResult` is the `page.evaluate` outcome —
`some none` models the script returning `undefined` because no `tbody`
exists; the tooltip oracles give, per card index, the harvested text
(`none` = no tooltip found) or a thrown interaction error. -/
structure Session where
  pageInit : Bool
  gotoResult : Except String Unit
  titleResult : Except String String
  evalResult : Except String (Option (List Row))
  headingsResult : Except String (List String)
  urlVal : String
  timestampVal : String
  rewardsTooltip : Nat → Except String (Option String)
  introTooltip : Nat → Except String (Option String)

/-- The object `scrapeCreditCardSection` returns: either the success shape
(`pageTitle`, `url`, `headings`, `creditCards`, `totalCardsFound`,
`timestamp`) or the catch-block shape (`error`, `errorMessage`,
`timestamp`); absent properties are `none`. -/
structure Report where
  pageTitle : Option String := none
  url : Option String := none
  headings : Option (List String) := none
  creditCards : Option (List CardData) := none
  totalCardsFound : Option Nat := none
  error : Option String := none
  errorMessage : Option String := none
  timestamp : String
deriving DecidableEq, Repr

/-- The rewards-tooltip step for card `i`: only flagged cards are
harvested; a thrown interaction error is caught by the per-card
`try/catch` and leaves the card unchanged; falsy tooltip content
(`null` or `""`) also leaves it unchanged. -/
def harvestRewards (s : Session) (i : Nat) (c : CardData) : CardData :=
  if c.hasRewardsTooltip then
    match s.rewardsTooltip i with
    | .ok (some txt) =>
      if txt ≠ "" then
        { c with detailedRewards := some (txt, parseRewardsTooltip txt.data) }
      else c
    | .ok none => c
    | .error _ => c
  else c

/-- The intro-tooltip step for card `i`, mirroring `harvestRewards`. -/
def harvestIntro (s : Session) (i : Nat) (c : CardData) : CardData :=
  if c.hasIntroTooltip then
    match s.introTooltip i with
    | .ok (some txt) =>
      if txt ≠ "" then
        { c with detailedIntroOffer := some (txt, parseIntroOffer txt.data) }
      else c
    | .ok none => c
    | .error _ => c
  else c

/-- The sequential tooltip loop over `creditCards`. -/
def harvestAll (s : Session) (cards : List CardData) : List CardData :=
  cards.enum.map fun p => harvestIntro s p.1 (harvestRewards s p.1 p.2)

/-- The body of the `try` block of `scrapeCreditCardSection`: page title,
in-page row extraction (a missing `tbody` makes the script return
`undefined`, and the subsequent `creditCards.length` access throws),
tooltip harvesting, headings, dedup, and the success report. -/
def tryBody (s : Session) : Except String Report :=
  match s.titleResult with
  | .error e => .error e
  | .ok pageTitle =>
    match s.evalResult with
    | .error e => .error e
    | .ok none =>
      .error "TypeError: Cannot read properties of undefined (reading 'length')"
    | .ok (some rows) =>
      match s.headingsResult with
      | .error e => .error e
      | .ok headings =>
        .ok { pageTitle := some pageTitle, url := some s.urlVal,
              headings := some headings,
              creditCards := some (uniqueCards (harvestAll s (extractCards rows))),
              totalCardsFound :=
                some (uniqueCards (harvestAll s (extractCards rows))).length,
              timestamp := s.timestampVal }

/-- Function `scrapeCreditCardSection`.  The not-initialized check and the
navigation happen BEFORE the `try` block, so their failures propagate as
thrown exceptions (`.error`); everything inside the `try` is absorbed by
the `catch` into an error-shaped report. -/
def scrapeCreditCardSection (s : Session) : Except String Report :=
  if !s.pageInit then .error "Browser not initialized. Call initialize() first."
  else
    match s.gotoResult with
    | .error e => .error e
    | .ok _ =>
      match tryBody s with
      | .ok r => .ok r
      | .error e =>
        .ok { error := some "Failed to scrape credit card section",
              errorMessage := some e, timestamp := s.timestampVal }

/-- The match start positions underlying the entries of
`parseRewardsTooltip`, in emission order. -/
def rewardMatchStarts (t : Str) : List Nat :=
  (rewardMatchesAll t).map (·.mstart)

/-- The §3 invariant on an emitted card: a non-empty name and at least one
of the annual-fee / rewards-text fields populated. -/
def goodCard (c : CardData) : Prop :=
  (∃ n, c.name = some n ∧ n ≠ "") ∧ (c.annualFee ≠ none ∨ c.rewards ≠ none)

/-- A session whose navigation succeeds and whose page has an empty card
table. -/
def sWit1 : Session :=
  ⟨true, .ok (), .ok "title", .ok (some []), .ok [], "url", "ts",
    fun _ => .ok none, fun _ => .ok none⟩

/-- A table row carrying a valid card. -/
def rowWit2 : Row :=
  { numCols := 5, testidEl := none, fallbackEl := some "Chase Sapphire",
    colText := "", ratingText := "4.5 / 5", feeText := "$95",
    rewardsText := "5x on travel", introText := "", rewardsBtn := false,
    introBtn := false, img := none }

/-- A session whose page shows exactly `rowWit2`. -/
def sWit2 : Session :=
  ⟨true, .ok (), .ok "title", .ok (some [rowWit2]), .ok [], "url", "ts",
    fun _ => .ok none, fun _ => .ok none⟩

/-- The card extracted from `rowWit2`. -/
def cWit2 : CardData :=
  { name := some "Chase Sapphire", rating := some "4.5",
    annualFee := some "95", rewards := some "5x on travel" }

/-- The report `sWit2` produces. -/
def rWit2 : Report :=
  { pageTitle := some "title", url := some "url", headings := some [],
    creditCards := some [cWit2], totalCardsFound := some 1,
    timestamp := "ts" }

/-- A row whose early name probe is the short fallback string `"ab"`. -/
def rowWit10 : Row :=
  { numCols := 5, testidEl := none, fallbackEl := some "ab",
    colText := "", ratingText := "", feeText := "$0", rewardsText := "",
    introText := "", rewardsBtn := false, introBtn := false, img := none }

/-- C1: the claim says every session error — including "session not
initialized" — is surfaced as a report object; but the initialization
check in `scrapeCreditCardSection` throws before the `try` block, so a
not-initialized session raises instead of returning a report. -/
theorem claim1_counterexample :
    scrapeCreditCardSection
      ⟨false, .ok (), .ok "t", .ok (some []), .ok [], "u", "ts",
        fun _ => .ok none, fun _ => .ok none⟩ =
      .error "Browser not initialized. Call initialize() first." := rfl

/-- C1 (amended): once the session is initialized and navigation
succeeds, every failure inside the extraction phase is absorbed and the
call returns a report value; but an uninitialized session or a navigation
failure (e.g. a timeout) is thrown to the caller, because both happen
before the `try` block. -/
theorem claim1_amended (s : Session) :
    (s.pageInit = true → s.gotoResult = .ok () →
      ∃ r, scrapeCreditCardSection s = .ok r) ∧
    (s.pageInit = false →
      scrapeCreditCardSection s =
        .error "Browser not initialized. Call initialize() first.") ∧
    (∀ e, s.pageInit = true → s.gotoResult = .error e →
      scrapeCreditCardSection s = .error e) := by
  refine ⟨?_, ?_, ?_⟩
  · intro h1 h2
    cases htry : tryBody s with
    | ok r => exact ⟨r, by simp [scrapeCreditCardSection, h1, h2, htry]⟩
    | error e =>
      refine ⟨{ error := some "Failed to scrape credit card section",
                errorMessage := some e, timestamp := s.timestampVal }, ?_⟩
      simp [scrapeCreditCardSection, h1, h2, htry]
  · intro h1
    simp [scrapeCreditCardSection, h1]
  · intro e h1 h2
    simp [scrapeCreditCardSection, h1, h2]

/-- C1 witness: a concrete successful session yields a report. -/
theorem claim1_witness : ∃ r, scrapeCreditCardSection sWit1 = .ok r :=
  (claim1_amended sWit1).1 rfl rfl

/-- C3: the claim says multiple dollar amounts are summed into
`bonusAmount`; on a text with `$100` and `$50` the parser stores the first
captured amount `"100"`, not `150` (in either value shape). -/
theorem claim3_counterexample :
    (parseIntroOffer "Get a $100 bonus and a $50 bonus".data).bonusAmount =
        some (.str "100") ∧
    (parseIntroOffer "Get a $100 bonus and a $50 bonus".data).bonusAmount ≠
        some (.num 150) ∧
    (parseIntroOffer "Get a $100 bonus and a $50 bonus".data).bonusAmount ≠
        some (.str "150") := by
  refine ⟨by decide, by decide, by decide⟩

/-- C3 (amended): `parseIntroOffer` never sums dollar amounts: its
`bonusAmount` is either absent or the single digit-string capture of the
first bonus pattern that matches (never a computed number), and on the
multi-amount text above it is the first amount `"100"`. -/
theorem claim3_amended :
    (∀ t : Str, (parseIntroOffer t).bonusAmount = none ∨
      ∃ a, (parseIntroOffer t).bonusAmount = some (.str a)) ∧
    (parseIntroOffer "Get a $100 bonus and a $50 bonus".data).bonusAmount =
      some (.str "100") := by
  constructor
  · intro t
    cases h : firstExec bonusPatterns t with
    | none => exact Or.inl (by simp [parseIntroOffer, h])
    | some m => exact Or.inr ⟨(cap1 m).asString, by simp [parseIntroOffer, h]⟩
  · decide

/-- C4: the claim says any text containing "Cashback Match" yields
`{amount: "match", currency: "cashback"}`; the function has no such
branch, and on the text "Cashback Match" it returns the all-null offer. -/
theorem claim4_counterexample :
    parseIntroOffer "Cashback Match".data = ⟨none, none, none, none, []⟩ := by
  decide

/-- C4 (amended): `parseIntroOffer` has no Cashback Match special case:
texts containing "Cashback Match" (any case) are parsed by the ordinary
patterns — the bare phrase yields the all-null offer, and other content in
such a text is still matched normally. -/
theorem claim4_amended :
    parseIntroOffer "cashback match".data = ⟨none, none, none, none, []⟩ ∧
    parseIntroOffer "CASHBACK MATCH".data = ⟨none, none, none, none, []⟩ ∧
    parseIntroOffer "Cashback Match: earn 5,000 points".data =
      ⟨some (.str "5,000"), none, none, none, []⟩ := by
  refine ⟨by decide, by decide, by decide⟩

/-- C5: the claim says the amounts are numbers (per the data model's
`spendRequirement: number|null`); the code stores the raw regex capture
strings, so neither field holds a number. -/
theorem claim5_counterexample :
    (parseIntroOffer
        "Earn a $200 bonus after you spend $500 in the first 3 months".data).spendRequirement ≠
      some (.num 500) ∧
    (parseIntroOffer
        "Earn a $200 bonus after you spend $500 in the first 3 months".data).bonusAmount ≠
      some (.num 200) := by
  refine ⟨by decide, by decide⟩

/-- C5 (amended): on the given text the parser yields the digit strings
`bonusAmount = "200"` and `spendRequirement = "500"` (regex captures, not
numbers) and `timeLimit = "3 months"`. -/
theorem claim5_amended :
    parseIntroOffer
        "Earn a $200 bonus after you spend $500 in the first 3 months".data =
      ⟨some (.str "200"), some (.str "500"), some "3 months", none, []⟩ := by
  decide

/-- C8: the claim says neither parser raises on null input; but
`parseIntroOffer` evaluates `tooltipText.toLowerCase()` in its
benefit-keyword loop, which throws a `TypeError` when the argument is
`null`. -/
theorem claim8_counterexample :
    parseIntroOfferJS none =
      .error "TypeError: Cannot read properties of null (reading 'toLowerCase')" := rfl

/-- C8 (amended): on empty input both parsers return the empty / all-null
result without failing, and `parseRewardsTooltip` also tolerates `null`
(`exec` coerces it to the string `"null"`, which no template matches); but
`parseIntroOffer` throws a `TypeError` on `null` input. -/
theorem claim8_amended :
    parseRewardsTooltip "".data = ⟨[]⟩ ∧
    parseIntroOffer "".data = ⟨none, none, none, none, []⟩ ∧
    parseRewardsTooltipJS none = ⟨[]⟩ ∧
    ∃ e, parseIntroOfferJS none = .error e := by
  refine ⟨by decide, by decide, by decide, ⟨_, rfl⟩⟩

/-- C10: the claim says a row whose extracted name text is shorter than 3
characters is never emitted; but when the name comes from the
`data-testid` element the length check does not apply (the probe is the
element object, and `element.length < 3` is false), so a 2-character name
is emitted. -/
theorem claim10_counterexample :
    extractRow 0
      { numCols := 5, testidEl := some "AB", fallbackEl := none,
        colText := "", ratingText := "", feeText := "$0", rewardsText := "",
        introText := "", rewardsBtn := false, introBtn := false,
        img := none } =
      some { name := some "AB", annualFee := some "0" } ∧
    ("AB" : String).length < 3 := by
  refine ⟨by decide, by decide⟩

/-- C10 (amended): the minimum-length-3 / placeholder validation applies
to the early name probe only when that probe is a STRING (the fallback or
raw cell text, used when the `data-testid` element is absent): such rows
are skipped and never emitted; when the `data-testid` element is present
the probe is the element itself and this check never skips the row. -/
theorem claim10_amended :
    (∀ i (row : Row) s, earlyProbe row = .str s →
      (s.length < 3 ∨ s = "ref: <Node>") → extractRow i row = none) ∧
    (∀ row : Row, row.testidEl.isSome → earlySkip (earlyProbe row) = false) := by
  constructor
  · intro i row s hp hs
    have hskip : earlySkip (earlyProbe row) = true := by
      rw [hp]
      rcases hs with h | h
      · simp [earlySkip, h]
      · simp [earlySkip, h]
    unfold extractRow
    split
    · rfl
    · simp [hskip]
  · intro row hrow
    rcases h : row.testidEl with _ | t
    · rw [h] at hrow
      simp at hrow
    · simp [earlyProbe, h, earlySkip]

/-- C10 witness: a concrete row with fallback-probe `"ab"` (length 2) is
skipped. -/
theorem claim10_witness : extractRow 0 rowWit10 = none :=
  claim10_amended.1 0 rowWit10 "ab" (by decide) (Or.inl (by decide))

lemma jsIncludes_iff {s sub : Str} : jsIncludes s sub = true ↔ sub <:+: s := by
  simp [jsIncludes]

/-- C7: the phrase "Chase Travel purchases" normalizes to the travel tag
with the Chase Travel platform, and in general any phrase whose lower
case contains "chase travel" does: such a phrase necessarily contains the
travel keyword, so `normalizeCategory` branches into
`extractTravelPlatform`, whose first platform check fires. -/
theorem claim7 :
    normalizeCategory "Chase Travel purchases".data =
      ⟨"travel", some "Chase Travel"⟩ ∧
    ∀ s : Str, jsIncludes (jsLower s) "chase travel".data = true →
      normalizeCategory s = ⟨"travel", some "Chase Travel"⟩ := by
  constructor
  · decide
  · intro s h
    have htravel : jsIncludes (jsLower s) "travel".data = true := by
      rw [jsIncludes_iff] at h ⊢
      exact List.IsInfix.trans (by decide) h
    have htrav : isTravelCategory (jsLower s) = true := by
      unfold isTravelCategory travelKeywords
      simp only [List.any_cons, List.any_nil, Bool.or_eq_true]
      exact Or.inl htravel
    simp [normalizeCategory, htrav, extractTravelPlatform, h]

/-- C7 witness: a concrete phrase containing "chase travel". -/
theorem claim7_witness :
    normalizeCategory "flights via Chase Travel portal".data =
      ⟨"travel", some "Chase Travel"⟩ :=
  claim7.2 "flights via Chase Travel portal".data (by decide)

lemma nameGuard_ne_empty {o : Option String} {n : String}
    (h : nameGuard o = some n) : n ≠ "" := by
  unfold nameGuard at h
  split at h
  · split at h
    next hcond =>
      cases h
      simpa using And.left (by simpa using hcond)
    next => exact absurd h (by simp)
  · exact absurd h (by simp)

lemma extractedName_ne_empty {row : Row} {n : String}
    (h : extractedName row = some n) : n ≠ "" :=
  nameGuard_ne_empty h

lemma buildCard_name (i : Nat) (row : Row) :
    (buildCard i row).name = extractedName row := rfl

lemma pushGuard_eq_some {cd c : CardData} (h : pushGuard cd = some c) :
    c = cd ∧ (cd.name.isSome && (cd.annualFee.isSome || cd.rewards.isSome)) = true := by
  unfold pushGuard at h
  split at h
  next hcond => cases h; exact ⟨rfl, hcond⟩
  next => exact absurd h (by simp)

lemma extractRow_goodCard {i : Nat} {row : Row} {c : CardData}
    (h : extractRow i row = some c) : goodCard c := by
  unfold extractRow at h
  split at h
  · exact absurd h (by simp)
  · split at h
    · exact absurd h (by simp)
    · obtain ⟨hceq, hcond⟩ := pushGuard_eq_some h
      subst hceq
      refine ⟨?_, ?_⟩
      · rcases hname : (buildCard i row).name with _ | n
        · rw [hname] at hcond; simp at hcond
        · refine ⟨n, rfl, ?_⟩
          rw [buildCard_name] at hname
          exact extractedName_ne_empty hname
      · have hcond' := hcond
        simp only [Bool.and_eq_true, Bool.or_eq_true] at hcond'
        rcases hcond'.2 with h3 | h3
        · exact Or.inl (Option.ne_none_iff_isSome.mpr h3)
        · exact Or.inr (Option.ne_none_iff_isSome.mpr h3)

lemma harvestRewards_preserves (s : Session) (i : Nat) (c : CardData) :
    (harvestRewards s i c).name = c.name ∧
    (harvestRewards s i c).annualFee = c.annualFee ∧
    (harvestRewards s i c).rewards = c.rewards := by
  unfold harvestRewards
  repeat' split
  all_goals exact ⟨rfl, rfl, rfl⟩

lemma harvestIntro_preserves (s : Session) (i : Nat) (c : CardData) :
    (harvestIntro s i c).name = c.name ∧
    (harvestIntro s i c).annualFee = c.annualFee ∧
    (harvestIntro s i c).rewards = c.rewards := by
  unfold harvestIntro
  repeat' split
  all_goals exact ⟨rfl, rfl, rfl⟩

lemma goodCard_harvest (s : Session) (i : Nat) (c : CardData)
    (h : goodCard c) : goodCard (harvestIntro s i (harvestRewards s i c)) := by
  obtain ⟨hn1, hf1, hr1⟩ := harvestRewards_preserves s i c
  obtain ⟨hn2, hf2, hr2⟩ := harvestIntro_preserves s i (harvestRewards s i c)
  unfold goodCard at h ⊢
  rw [hn2, hf2, hr2, hn1, hf1, hr1]
  exact h

lemma mem_of_mem_uniqueCardsAux {full : List CardData} :
    ∀ {i : Nat} {l : List CardData} {c : CardData},
      c ∈ uniqueCardsAux full i l → c ∈ l := by
  intro i l
  induction l generalizing i with
  | nil => intro c h; simp [uniqueCardsAux] at h
  | cons x rest ih =>
    intro c h
    unfold uniqueCardsAux at h
    split at h
    · rcases List.mem_cons.mp h with h1 | h2
      · exact List.mem_cons.mpr (Or.inl h1)
      · exact List.mem_cons.mpr (Or.inr (ih h2))
    · exact List.mem_cons.mpr (Or.inr (ih h))

lemma mem_of_mem_uniqueCards {l : List CardData} {c : CardData}
    (h : c ∈ uniqueCards l) : c ∈ l :=
  mem_of_mem_uniqueCardsAux h

lemma goodCard_of_mem_harvestAll {s : Session} {cards : List CardData}
    {c : CardData} (hall : ∀ c0 ∈ cards, goodCard c0)
    (h : c ∈ harvestAll s cards) : goodCard c := by
  unfold harvestAll at h
  rcases List.mem_map.mp h with ⟨⟨i, c0⟩, hmem, hc⟩
  have hc0 : c0 ∈ cards := by
    have := List.mem_enum_iff_getElem?.mp hmem
    exact List.getElem?_mem this
  cases hc
  exact goodCard_harvest s i c0 (hall c0 hc0)

/-- C2: every card pushed by the in-page row extraction has a non-empty
name and a populated annual fee or rewards text (rows failing this are
never emitted), and consequently every card in the `creditCards` list of a
returned report satisfies the invariant. -/
theorem claim2 :
    (∀ (rows : List Row) (c : CardData), c ∈ extractCards rows → goodCard c) ∧
    (∀ (s : Session) (r : Report) (cl : List CardData),
      scrapeCreditCardSection s = .ok r → r.creditCards = some cl →
      ∀ c ∈ cl, goodCard c) := by
  have hex : ∀ (rows : List Row) (c : CardData),
      c ∈ extractCards rows → goodCard c := by
    intro rows c h
    rcases List.mem_filterMap.mp h with ⟨⟨i, row⟩, -, hrow⟩
    exact extractRow_goodCard hrow
  refine ⟨hex, ?_⟩
  intro s r cl hok hcl c hc
  unfold scrapeCreditCardSection at hok
  split at hok
  · exact absurd hok (by simp)
  · split at hok
    · exact absurd hok (by simp)
    · split at hok
      next rr htry =>
        cases hok
        unfold tryBody at htry
        cases ht : s.titleResult with
        | error e => rw [ht] at htry; exact absurd htry (by simp)
        | ok title =>
          rw [ht] at htry
          cases he : s.evalResult with
          | error e => rw [he] at htry; exact absurd htry (by simp)
          | ok rowsOpt =>
            rw [he] at htry
            cases rowsOpt with
            | none => exact absurd htry (by simp)
            | some rows =>
              cases hh : s.headingsResult with
              | error e =>
                rw [hh] at htry; exact absurd htry (by simp)
              | ok heads =>
                rw [hh] at htry
                cases htry
                simp only [Report.creditCards, Option.some.injEq] at hcl
                subst hcl
                have hmem := mem_of_mem_uniqueCards hc
                exact goodCard_of_mem_harvestAll (fun c0 hc0 => hex rows c0 hc0) hmem
      next e htry =>
        cases hok
        simp at hcl

/-- C2 witness: the invariant on the card of a concrete report. -/
theorem claim2_witness : goodCard cWit2 :=
  claim2.2 sWit2 rWit2 [cWit2] (by rfl) rfl cWit2 (by simp)

lemma keyEq_iff {a b : CardData} :
    keyEq a b = true ↔
      a.name = b.name ∧ a.annualFee = b.annualFee ∧ a.rewards = b.rewards := by
  simp [keyEq, and_assoc]

lemma keyEq_self (c : CardData) : keyEq c c = true := by
  simp [keyEq]

lemma keyEq_trans {a b c : CardData} (h1 : keyEq a b = true)
    (h2 : keyEq b c = true) : keyEq a c = true := by
  rw [keyEq_iff] at h1 h2 ⊢
  exact ⟨h1.1.trans h2.1, h1.2.1.trans h2.2.1, h1.2.2.trans h2.2.2⟩

lemma findIdx_keyEq_of_any {pre l : List CardData} {c : CardData}
    (h : pre.any (fun x => keyEq x c) = true) :
    (pre ++ l).findIdx (fun x => keyEq x c) < pre.length := by
  have hlt := List.findIdx_lt_length_of_exists (List.any_eq_true.mp h)
  rw [List.findIdx_append, if_pos hlt]
  exact hlt

lemma findIdx_keyEq_of_not_any {pre rest : List CardData} {c : CardData}
    (h : pre.any (fun x => keyEq x c) = false) :
    (pre ++ c :: rest).findIdx (fun x => keyEq x c) = pre.length := by
  have hnlt : ¬ pre.findIdx (fun x => keyEq x c) < pre.length := by
    intro hlt
    have hmem : pre.any (fun x => keyEq x c) = true := by
      rw [List.any_eq_true]
      exact ⟨pre[pre.findIdx (fun x => keyEq x c)], List.getElem_mem hlt,
        List.findIdx_getElem (w := hlt)⟩
    rw [h] at hmem
    exact Bool.false_ne_true hmem
  rw [List.findIdx_append, if_neg hnlt, List.findIdx_cons, keyEq_self, cond_true]
  exact Nat.zero_add _

lemma uniqueCardsAux_eq_spec :
    ∀ (rest pre seen : List CardData),
      (∀ c, pre.any (fun x => keyEq x c) = seen.any (fun x => keyEq x c)) →
      uniqueCardsAux (pre ++ rest) pre.length rest = dedupeSpecAux seen rest := by
  intro rest
  induction rest with
  | nil => intro pre seen _; rfl
  | cons c rest ih =>
    intro pre seen h
    unfold uniqueCardsAux dedupeSpecAux
    by_cases hany : pre.any (fun x => keyEq x c) = true
    · have hseen : seen.any (fun x => keyEq x c) = true := by rw [← h]; exact hany
      have hne : ¬ (pre ++ c :: rest).findIdx (fun x => keyEq x c) = pre.length :=
        Nat.ne_of_lt (findIdx_keyEq_of_any hany)
      rw [if_neg hne, if_pos hseen]
      have hfull : pre ++ c :: rest = (pre ++ [c]) ++ rest := by simp
      have hlen : pre.length + 1 = (pre ++ [c]).length := by simp
      rw [hfull, hlen]
      apply ih
      intro d
      rw [List.any_append]
      by_cases hcd : keyEq c d = true
      · have : seen.any (fun x => keyEq x d) = true := by
          rcases List.any_eq_true.mp hseen with ⟨x, hx, hxc⟩
          exact List.any_eq_true.mpr ⟨x, hx, keyEq_trans hxc hcd⟩
        simp [List.any_cons, List.any_nil, hcd, this, h d]
      · have hcd' : keyEq c d = false := Bool.eq_false_iff.mpr hcd
        simp [List.any_cons, List.any_nil, hcd', h d]
    · have hany' : pre.any (fun x => keyEq x c) = false := Bool.eq_false_iff.mpr hany
      have hseen : seen.any (fun x => keyEq x c) = false := by rw [← h]; exact hany'
      rw [if_pos (findIdx_keyEq_of_not_any hany'), if_neg (by rw [hseen]; exact Bool.false_ne_true)]
      have hfull : pre ++ c :: rest = (pre ++ [c]) ++ rest := by simp
      have hlen : pre.length + 1 = (pre ++ [c]).length := by simp
      rw [hfull, hlen]
      congr 1
      apply ih
      intro d
      rw [List.any_append, List.any_append, h d]

lemma dedupeSpecAux_sublist : ∀ (l seen : List CardData),
    (dedupeSpecAux seen l).Sublist l := by
  intro l
  induction l with
  | nil => intro seen; exact List.Sublist.refl []
  | cons c rest ih =>
    intro seen
    unfold dedupeSpecAux
    split
    · exact (ih seen).cons c
    · exact (ih (seen ++ [c])).cons₂ c

/-- C6: the dedup filter keeps a card iff no earlier card shares its
`(name, annualFee, rewardsText)` triple: it equals the spec-level
first-occurrence dedup, and its output is a sublist of its input
(order-preserving, so the kept representative is the one with the lowest
row index). -/
theorem claim6 (l : List CardData) :
    uniqueCards l = dedupeSpec l ∧ (uniqueCards l).Sublist l := by
  have heq : uniqueCards l = dedupeSpec l := by
    have := uniqueCardsAux_eq_spec l [] [] (fun c => rfl)
    simpa [uniqueCards, dedupeSpec] using this
  exact ⟨heq, heq ▸ dedupeSpecAux_sublist l []⟩

lemma firstMatchFrom_bounds {re : RE} {s : Str} {i : Nat} {m : MatchRes}
    (h : firstMatchFrom re s i = some m) : i ≤ m.mstart ∧ m.mstart ≤ m.mend := by
  unfold firstMatchFrom at h
  rcases List.exists_of_findSome?_eq_some h with ⟨j, hj, hfj⟩
  rcases List.mem_range'_1.mp hj with ⟨hij, -⟩
  rcases hmj : matchAt re s j with _ | r
  · rw [hmj] at hfj; exact absurd hfj (by simp)
  · rw [hmj] at hfj
    simp only [Option.map_some', Option.some.injEq] at hfj
    subst hfj
    exact ⟨hij, Nat.le_add_right j r.1⟩

lemma execLoopFrom_start_ge {re : RE} {s : Str} :
    ∀ (fuel i : Nat) (m : MatchRes), m ∈ execLoopFrom re s fuel i → i ≤ m.mstart := by
  intro fuel
  induction fuel with
  | zero => intro i m h; simp [execLoopFrom] at h
  | succ fuel ih =>
    intro i m h
    unfold execLoopFrom at h
    split at h
    · simp at h
    next m0 hm0 =>
      rcases List.mem_cons.mp h with h1 | h2
      · subst h1; exact (firstMatchFrom_bounds hm0).1
      · split at h2
        next hlt => exact le_trans (le_of_lt hlt) (ih _ _ h2)
        next => simp at h2

lemma execLoopFrom_chain {re : RE} {s : Str} :
    ∀ (fuel i : Nat),
      List.Chain' (· ≤ ·) ((execLoopFrom re s fuel i).map (·.mstart)) := by
  intro fuel
  induction fuel with
  | zero => intro i; simp [execLoopFrom]
  | succ fuel ih =>
    intro i
    unfold execLoopFrom
    split
    · simp
    next m0 hm0 =>
      by_cases hc : i < m0.mend
      · simp only [if_pos hc, List.map_cons]
        rw [List.chain'_cons']
        refine ⟨?_, ih m0.mend⟩
        intro y hy
        have hylist : y ∈ (execLoopFrom re s fuel m0.mend).map (·.mstart) :=
          List.mem_of_mem_head? hy
        rcases List.mem_map.mp hylist with ⟨m1, hm1, hys⟩
        subst hys
        exact le_trans (firstMatchFrom_bounds hm0).2
          (execLoopFrom_start_ge fuel m0.mend m1 hm1)
      · simp [if_neg hc]

/-- C9: the claim says the entries of a parsed `RewardSet` appear in
source-text match order even across templates; but the loop appends all
matches of template 1, then all of template 2, and so on — on a text where
a later-listed template matches earlier in the text, the emitted order is
not the text order (here positions `[11, 0]`). -/
theorem claim9_counterexample :
    rewardMatchStarts "3x on gas, 2% cash back at dining".data = [11, 0] ∧
    ¬ List.Chain' (· ≤ ·)
        (rewardMatchStarts "3x on gas, 2% cash back at dining".data) ∧
    parseRewardsTooltip "3x on gas, 2% cash back at dining".data =
      ⟨[⟨"2%", "restaurants", none, "dining"⟩, ⟨"3x", "gas", none, "gas"⟩]⟩ := by
  refine ⟨by decide, ?_, by decide⟩
  intro hch
  rw [(by decide :
    rewardMatchStarts "3x on gas, 2% cash back at dining".data = [11, 0])] at hch
  rcases List.chain'_cons.mp hch with ⟨h11, -⟩
  omega

/-- C9 (amended): entries are emitted grouped by template — the output is
the concatenation, over the eight templates in their fixed order, of that
template's matches; and only WITHIN one template are the match positions
non-decreasing (each `exec` resumes at the previous match's end). -/
theorem claim9_amended (t : Str) :
    (parseRewardsTooltip t).categories =
      rewardPatterns.flatMap (fun p => (execAll p t).map matchToEntry) ∧
    ∀ p : RE, List.Chain' (· ≤ ·) ((execAll p t).map (·.mstart)) := by
  constructor
  · simp [parseRewardsTooltip, rewardMatchesAll, List.map_flatMap]
  · intro p
    exact execLoopFrom_chain _ _

end NW
